import Mathlib

/-!
Verification development for the dependency-upgrade and dependency-remove
engines of the `cargo-edit` repository.

The development shallowly embeds:

* the semantics of the `semver` crate (version/requirement parsing and
  matching) that `src/bin/upgrade/upgrade.rs` relies on,
* the pure helper functions of `src/bin/upgrade/upgrade.rs`
  (`is_pinned_req`, `old_version_compatible`, `find_locked_version`,
  `Dep::is_interesting`, ...),
* the per-dependency decision logic of `exec` in
  `src/bin/upgrade/upgrade.rs` (lines 125-354) as an explicit state-passing
  model producing decision records, manifest-write events and notes, and
* the removal loop of `crates/cargo-remove/src/cargo/ops/cargo_remove/mod.rs`
  as an event-trace model.

External collaborators (registry refresh, `cargo metadata` invocation,
terminal output) are modelled as oracle inputs or dropped, following the
specification's scoping; `cargo_edit::upgrade_requirement`,
`remove_from_table` and `gc_dep` live in library code that is not part of
the analysed sources, so they are modelled from the specification and
marked as such.
-/

deriving instance DecidableEq for Except

namespace CargoEdit

/-! ## Model of the `semver` crate

`upgrade.rs` manipulates version requirements through `semver::VersionReq`,
`semver::Version`, `semver::Comparator` and `semver::Op`.  The definitions
below embed the behaviour of semver 1.x: pre-release identifiers, versions,
comparators, the requirement grammar and the matching rules of `eval.rs`.
-/

/-- A pre-release identifier: numeric identifiers compare as numbers and are
lower precedence than alphanumeric identifiers. -/
inductive PreIdent where
  | num (n : Nat)
  | alpha (s : String)
deriving DecidableEq, Repr

/-- A semantic version (`semver::Version`): `major.minor.patch` plus optional
pre-release and build-metadata identifier lists. -/
structure SemVer where
  major : Nat
  minor : Nat
  patch : Nat
  pre : List PreIdent
  build : List String
deriving DecidableEq, Repr

/-- Comparison operators of `semver::Op`. -/
inductive SemOp where
  | Exact
  | Greater
  | GreaterEq
  | Less
  | LessEq
  | Tilde
  | Caret
  | Wildcard
deriving DecidableEq, Repr

/-- One comparator of a version requirement (`semver::Comparator`):
an operator, a major number and optional minor/patch numbers plus a
pre-release list. -/
structure SemComparator where
  op : SemOp
  major : Nat
  minor : Option Nat
  patch : Option Nat
  pre : List PreIdent
deriving DecidableEq, Repr

/-- A version requirement (`semver::VersionReq`) is a list of comparators;
the empty list is the `*` requirement that matches everything. -/
abbrev SemVersionReq := List SemComparator

/-! ### Pre-release precedence (`impl Ord for Prerelease`) -/

/-- Ordering of single pre-release identifiers: numeric before alphanumeric,
numeric by value, alphanumeric lexicographically by ASCII. -/
def preIdentCmp : PreIdent → PreIdent → Ordering
  | .num a, .num b => compare a b
  | .num _, .alpha _ => .lt
  | .alpha _, .num _ => .gt
  | .alpha a, .alpha b => compare a b

/-- Lexicographic ordering of nonempty identifier lists; a strict prefix is
smaller. -/
def preListCmp : List PreIdent → List PreIdent → Ordering
  | [], [] => .eq
  | [], _ :: _ => .lt
  | _ :: _, [] => .gt
  | a :: as_, b :: bs =>
    match preIdentCmp a b with
    | .eq => preListCmp as_ bs
    | o => o

/-- Full pre-release ordering: the empty pre-release (a normal release) has
the highest precedence, mirroring `semver::Prerelease`'s `Ord`. -/
def preCmp (a b : List PreIdent) : Ordering :=
  match a, b with
  | [], [] => .eq
  | [], _ :: _ => .gt
  | _ :: _, [] => .lt
  | _, _ => preListCmp a b

/-- Strict greater-than on pre-release lists. -/
def preGt (a b : List PreIdent) : Bool := preCmp a b == .gt

/-- Strict less-than on pre-release lists. -/
def preLt (a b : List PreIdent) : Bool := preCmp a b == .lt

/-- Greater-or-equal on pre-release lists. -/
def preGe (a b : List PreIdent) : Bool := !(preCmp a b == .lt)

/-! ### Requirement matching (`semver`'s `eval.rs`) -/

/-- Embeds `matches_exact`: used for `Exact` and `Wildcard` comparators; every
present component must agree and the pre-release lists must be equal. -/
def matchesExact (c : SemComparator) (v : SemVer) : Bool :=
  if v.major ≠ c.major then false
  else if (match c.minor with | none => false | some mi => v.minor ≠ mi) then false
  else if (match c.patch with | none => false | some pa => v.patch ≠ pa) then false
  else v.pre == c.pre

/-- Embeds `matches_greater`: strictly above the comparator; absent components make
the comparison undecidable at that level and yield `false`. -/
def matchesGreater (c : SemComparator) (v : SemVer) : Bool :=
  if v.major ≠ c.major then decide (c.major < v.major)
  else
    match c.minor with
    | none => false
    | some mi =>
      if v.minor ≠ mi then decide (mi < v.minor)
      else
        match c.patch with
        | none => false
        | some pa =>
          if v.patch ≠ pa then decide (pa < v.patch)
          else preGt v.pre c.pre

/-- Embeds `matches_less`: strictly below the comparator. -/
def matchesLess (c : SemComparator) (v : SemVer) : Bool :=
  if v.major ≠ c.major then decide (v.major < c.major)
  else
    match c.minor with
    | none => false
    | some mi =>
      if v.minor ≠ mi then decide (v.minor < mi)
      else
        match c.patch with
        | none => false
        | some pa =>
          if v.patch ≠ pa then decide (v.patch < pa)
          else preLt v.pre c.pre

/-- Embeds `matches_tilde`: same major/minor, patch may grow. -/
def matchesTilde (c : SemComparator) (v : SemVer) : Bool :=
  if v.major ≠ c.major then false
  else if (match c.minor with | none => false | some mi => v.minor ≠ mi) then false
  else
    match c.patch with
    | none => preGe v.pre c.pre
    | some pa =>
      if v.patch ≠ pa then decide (pa < v.patch)
      else preGe v.pre c.pre

/-- Embeds `matches_caret`: compatible-by-default semantics (leftmost nonzero
component fixed). -/
def matchesCaret (c : SemComparator) (v : SemVer) : Bool :=
  if v.major ≠ c.major then false
  else
    match c.minor with
    | none => true
    | some mi =>
      match c.patch with
      | none =>
        if 0 < c.major then decide (mi ≤ v.minor) else v.minor == mi
      | some pa =>
        if 0 < c.major then
          if v.minor ≠ mi then decide (mi < v.minor)
          else if v.patch ≠ pa then decide (pa < v.patch)
          else preGe v.pre c.pre
        else if 0 < mi then
          if v.minor ≠ mi then false
          else if v.patch ≠ pa then decide (pa < v.patch)
          else preGe v.pre c.pre
        else
          if v.minor = mi ∧ v.patch = pa then preGe v.pre c.pre else false

/-- Dispatch on the comparator operator (`matches_impl`). -/
def matchesImpl (c : SemComparator) (v : SemVer) : Bool :=
  match c.op with
  | .Exact => matchesExact c v
  | .Wildcard => matchesExact c v
  | .Greater => matchesGreater c v
  | .GreaterEq => matchesExact c v || matchesGreater c v
  | .Less => matchesLess c v
  | .LessEq => matchesExact c v || matchesLess c v
  | .Tilde => matchesTilde c v
  | .Caret => matchesCaret c v

/-- Embeds `pre_is_compatible`: a pre-release version may only match a comparator
that names the same `major.minor.patch` and itself has a pre-release. -/
def preCompatible (c : SemComparator) (v : SemVer) : Bool :=
  c.major == v.major && c.minor == some v.minor && c.patch == some v.patch
    && !c.pre.isEmpty

/-- Embeds `VersionReq::matches` (`matches_req`): every comparator must match, and a
pre-release version additionally needs one pre-compatible comparator. -/
def reqMatches (req : SemVersionReq) (v : SemVer) : Bool :=
  req.all (fun c => matchesImpl c v)
    && (v.pre.isEmpty || req.any (fun c => preCompatible c v))

/-! ### Parsing (`semver`'s `parse.rs`) -/

/-- Digit span of a character list. -/
def natOfDigits (ds : List Char) : Nat :=
  ds.foldl (fun a c => a * 10 + (c.toNat - '0'.toNat)) 0

/-- Parse a numeric identifier: a nonempty digit run without a leading zero
(unless it is exactly `0`). -/
def parseNumericId (cs : List Char) : Option (Nat × List Char) :=
  let p := cs.span Char.isDigit
  match p.1 with
  | [] => none
  | d :: rest =>
    if d = '0' ∧ rest ≠ [] then none
    else some (natOfDigits p.1, p.2)

/-- Characters allowed inside pre-release/build identifiers. -/
def isIdentChar (c : Char) : Bool := c.isAlphanum || c = '-'

/-- Wildcard characters accepted by semver: `*`, `x`, `X`. -/
def isWildChar (c : Char) : Bool := c = '*' || c = 'x' || c = 'X'

/-- Drop leading spaces. -/
def dropSpaces (cs : List Char) : List Char := cs.dropWhile (fun c => c = ' ')

/-- The semantics of `String.contains`, computed on the character list (the byte-position
loop of the library version does not reduce inside the kernel). -/
def strContains (s : String) (c : Char) : Bool := s.toList.contains c

/-- The semantics of `str.starts_with` / `String.startsWith` on character lists. -/
def strStartsWith (s p : String) : Bool := p.toList.isPrefixOf s.toList

/-- The semantics of `String.drop`, computed on the character list. -/
def strDrop (s : String) (n : Nat) : String := String.mk (s.toList.drop n)

/-- Parse one pre-release identifier: nonempty, alphanumeric-or-hyphen;
all-digit identifiers are numeric and must not have a leading zero. -/
def parsePreIdent (cs : List Char) : Option (PreIdent × List Char) :=
  let p := cs.span isIdentChar
  match p.1 with
  | [] => none
  | d :: rest =>
    if (d :: rest).all Char.isDigit then
      if d = '0' ∧ rest ≠ [] then none
      else some (.num (natOfDigits (d :: rest)), p.2)
    else some (.alpha (String.mk (d :: rest)), p.2)

/-- Parse a dot-separated nonempty list of pre-release identifiers. -/
def parsePreList : Nat → List Char → Option (List PreIdent × List Char)
  | 0, _ => none
  | fuel + 1, cs =>
    match parsePreIdent cs with
    | none => none
    | some (i, rest) =>
      match rest with
      | '.' :: rest2 =>
        match parsePreList fuel rest2 with
        | none => none
        | some (is_, r) => some (i :: is_, r)
      | _ => some ([i], rest)

/-- Parse one build identifier: nonempty, alphanumeric-or-hyphen (leading
zeros allowed). -/
def parseBuildId (cs : List Char) : Option (String × List Char) :=
  let p := cs.span isIdentChar
  if p.1.isEmpty then none else some (String.mk p.1, p.2)

/-- Parse a dot-separated nonempty list of build identifiers. -/
def parseBuildList : Nat → List Char → Option (List String × List Char)
  | 0, _ => none
  | fuel + 1, cs =>
    match parseBuildId cs with
    | none => none
    | some (i, rest) =>
      match rest with
      | '.' :: rest2 =>
        match parseBuildList fuel rest2 with
        | none => none
        | some (is_, r) => some (i :: is_, r)
      | _ => some ([i], rest)

/-- Optional `-pre` suffix. -/
def parseOptPre (cs : List Char) : Option (List PreIdent × List Char) :=
  match cs with
  | '-' :: rest => parsePreList (rest.length + 1) rest
  | _ => some ([], cs)

/-- Optional `+build` suffix. -/
def parseOptBuild (cs : List Char) : Option (List String × List Char) :=
  match cs with
  | '+' :: rest => parseBuildList (rest.length + 1) rest
  | _ => some ([], cs)

/-- Embeds `semver::Version::parse`: `major.minor.patch` with optional pre-release
and build metadata and no surrounding junk. -/
def parseSemVer (s : String) : Option SemVer :=
  match parseNumericId s.toList with
  | none => none
  | some (major, cs) =>
    match cs with
    | '.' :: cs =>
      match parseNumericId cs with
      | none => none
      | some (minor, cs) =>
        match cs with
        | '.' :: cs =>
          match parseNumericId cs with
          | none => none
          | some (patch, cs) =>
            match parseOptPre cs with
            | none => none
            | some (pre, cs) =>
              match parseOptBuild cs with
              | none => none
              | some (build, cs) =>
                if cs.isEmpty then some ⟨major, minor, patch, pre, build⟩
                else none
        | _ => none
    | _ => none

/-- Parse the operator prefix of a comparator; the second component records
whether the operator was implicit (no operator character), in which case the
default operator `Caret` is used and a wildcard component may still change
it. -/
def parseOpChars : List Char → SemOp × Bool × List Char
  | '=' :: rest => (.Exact, false, rest)
  | '>' :: '=' :: rest => (.GreaterEq, false, rest)
  | '>' :: rest => (.Greater, false, rest)
  | '<' :: '=' :: rest => (.LessEq, false, rest)
  | '<' :: rest => (.Less, false, rest)
  | '~' :: rest => (.Tilde, false, rest)
  | '^' :: rest => (.Caret, false, rest)
  | cs => (.Caret, true, cs)

/-- Parse one comparator: operator, major, optional minor/patch where a
wildcard component turns an implicit operator into `Wildcard`; numeric
components after a wildcard are rejected; pre-release and build suffixes are
only accepted after a full `major.minor.patch` (build metadata is parsed and
discarded, as `semver::Comparator` keeps none). -/
def parseSemComparator (cs : List Char) : Option (SemComparator × List Char) :=
  let q := parseOpChars cs
  let op := q.1
  let isDefault := q.2.1
  let cs := dropSpaces q.2.2
  match parseNumericId cs with
  | none => none
  | some (major, cs) =>
    match cs with
    | '.' :: c :: cs2 =>
      if isWildChar c then
        let op := if isDefault then SemOp.Wildcard else op
        match cs2 with
        | '.' :: c2 :: cs3 =>
          if isWildChar c2 then
            some ({ op := op, major := major, minor := none, patch := none,
                    pre := [] }, cs3)
          else none
        | '.' :: [] => none
        | _ =>
          some ({ op := op, major := major, minor := none, patch := none,
                  pre := [] }, cs2)
      else
        match parseNumericId (c :: cs2) with
        | none => none
        | some (minor, cs3) =>
          match cs3 with
          | '.' :: c2 :: cs4 =>
            if isWildChar c2 then
              let op := if isDefault then SemOp.Wildcard else op
              some ({ op := op, major := major, minor := some minor,
                      patch := none, pre := [] }, cs4)
            else
              match parseNumericId (c2 :: cs4) with
              | none => none
              | some (patch, cs5) =>
                match parseOptPre cs5 with
                | none => none
                | some (pre, cs6) =>
                  match parseOptBuild cs6 with
                  | none => none
                  | some (_, cs7) =>
                    some ({ op := op, major := major, minor := some minor,
                            patch := some patch, pre := pre }, cs7)
          | '.' :: [] => none
          | _ =>
            some ({ op := op, major := major, minor := some minor,
                    patch := none, pre := [] }, cs3)
    | '.' :: [] => none
    | _ =>
      some ({ op := op, major := major, minor := none, patch := none,
              pre := [] }, cs)

/-- Parse a comma-separated list of comparators. -/
def parseSemComparators : Nat → List Char → Option (List SemComparator)
  | 0, _ => none
  | fuel + 1, cs =>
    let cs := dropSpaces cs
    match parseSemComparator cs with
    | none => none
    | some (c, rest) =>
      match dropSpaces rest with
      | [] => some [c]
      | ',' :: rest2 =>
        match parseSemComparators fuel rest2 with
        | none => none
        | some l => some (c :: l)
      | _ => none

/-- Embeds `semver::VersionReq::parse`: a lone wildcard (after spaces) is the STAR
requirement with no comparators; otherwise a nonempty comparator list. -/
def parseVersionReq (s : String) : Option SemVersionReq :=
  match dropSpaces s.toList with
  | [] => none
  | c :: rest =>
    if isWildChar c ∧ (dropSpaces rest).isEmpty then some []
    else parseSemComparators (s.toList.length + 1) (c :: rest)

/-! ### Display -/

/-- Render one pre-release identifier. -/
def preIdentStr : PreIdent → String
  | .num n => toString n
  | .alpha s => s

/-- Render a pre-release list with its leading hyphen (empty for a release). -/
def preSuffix (pre : List PreIdent) : String :=
  if pre.isEmpty then "" else "-" ++ String.intercalate "." (pre.map preIdentStr)

/-- Render build metadata with its leading plus sign. -/
def buildSuffix (b : List String) : String :=
  if b.isEmpty then "" else "+" ++ String.intercalate "." b

/-- Rendering of `semver::Version` (its `Display`). -/
def versionToString (v : SemVer) : String :=
  toString v.major ++ "." ++ toString v.minor ++ "." ++ toString v.patch
    ++ preSuffix v.pre ++ buildSuffix v.build

/-- Operator prefix used by `semver::Comparator`'s `Display`. -/
def opPrefix : SemOp → String
  | .Exact => "="
  | .Greater => ">"
  | .GreaterEq => ">="
  | .Less => "<"
  | .LessEq => "<="
  | .Tilde => "~"
  | .Caret => "^"
  | .Wildcard => ""

/-- Rendering of `semver::Comparator` (its `Display`); wildcard comparators render their
missing component as `*`. -/
def compToString (c : SemComparator) : String :=
  opPrefix c.op ++ toString c.major ++
    (match c.minor with
     | none => if c.op == SemOp.Wildcard then ".*" else ""
     | some mi =>
       "." ++ toString mi ++
         (match c.patch with
          | none => if c.op == SemOp.Wildcard then ".*" else ""
          | some pa => "." ++ toString pa ++ preSuffix c.pre))

/-- Rendering of `semver::VersionReq` (its `Display`): comparators joined by `, `. -/
def reqToString (r : SemVersionReq) : String :=
  String.intercalate ", " (r.map compToString)

/-! ## Pure helpers of `src/bin/upgrade/upgrade.rs` -/

/-- Embeds `is_pinned_req` (upgrade.rs lines 417-428): a requirement is pinned when
it parses and at least one comparator uses `Exact`, `Less`, `LessEq` or
`Wildcard`; an unparsable requirement is not pinned. -/
def is_pinned_req (old_version_req : String) : Bool :=
  match parseVersionReq old_version_req with
  | some version_req =>
    version_req.any (fun comparator =>
      comparator.op == SemOp.Exact || comparator.op == SemOp.Less
        || comparator.op == SemOp.LessEq || comparator.op == SemOp.Wildcard)
  | none => false

/-- Embeds `old_version_compatible` (upgrade.rs lines 402-415): whether the old
requirement already matches the new version; parse failures on either side
yield `false`. -/
def old_version_compatible (old_version_req new_version : String) : Bool :=
  match parseVersionReq old_version_req with
  | none => false
  | some req =>
    match parseSemVer new_version with
    | none => false
    | some v => reqMatches req v

/-- An entry of the external lockfile snapshot (`cargo_metadata::Package`
restricted to the fields `find_locked_version` reads). -/
structure LockedPkg where
  name : String
  version : SemVer
deriving DecidableEq, Repr

/-- Embeds `find_locked_version` (upgrade.rs lines 386-400): the first lockfile
package whose name equals the dependency name and whose version satisfies
the old requirement, rendered with build metadata stripped; `none` when the
old requirement does not parse or nothing matches. -/
def find_locked_version (dep_name : String) (old_version : String)
    (locked : List LockedPkg) : Option String :=
  match parseVersionReq old_version with
  | none => none
  | some req => findLockedLoop dep_name req locked
where
  /-- The `for p in locked` loop of `find_locked_version`. -/
  findLockedLoop (dep_name : String) (req : SemVersionReq) :
      List LockedPkg → Option String
    | [] => none
    | p :: rest =>
      if dep_name = p.name ∧ reqMatches req p.version then
        some (versionToString { p.version with build := [] })
      else findLockedLoop dep_name req rest

/-- The reason tag of a decision record (upgrade.rs lines 558-563). -/
inductive Reason where
  | Unchanged
  | Compatible
  | Pinned
deriving DecidableEq, Repr

/-- A decision record (`struct Dep`, upgrade.rs lines 443-450). -/
structure Dep where
  name : String
  old_version_req : String
  locked_version : Option String
  latest_version : Option String
  new_version_req : String
  reason : Option Reason
deriving DecidableEq, Repr

/-- Embeds `Dep::old_req_matches_latest` (upgrade.rs lines 461-472): `true` unless
both the latest version and the old requirement parse and the requirement
rejects that version. -/
def Dep.old_req_matches_latest (d : Dep) : Bool :=
  match d.latest_version with
  | none => true
  | some latest =>
    match parseSemVer latest with
    | none => true
    | some latest_version =>
      match parseVersionReq d.old_version_req with
      | none => true
      | some req => reqMatches req latest_version

/-- Embeds `Dep::req_changed` (upgrade.rs lines 521-523). -/
def Dep.req_changed (d : Dep) : Bool :=
  d.new_version_req != d.old_version_req

/-- Embeds `Dep::is_interesting` (upgrade.rs lines 541-555): interesting when the
reason is absent, or the requirement changed, or the old requirement no
longer matches the latest version. -/
def Dep.is_interesting (d : Dep) : Bool :=
  if d.reason == none then true
  else if d.req_changed then true
  else if !d.old_req_matches_latest then true
  else false

/-! ## `cargo_edit::upgrade_requirement`

The function lives in the cargo-edit library crate, which is not among the
analysed sources; only its caller `exec` is.  It is therefore modelled from
the specification. -/

/-- Modelled from the spec: the per-comparator rewrite underlying
`minimal_upgrade` / `cargo_edit::upgrade_requirement` — "preserves the old
requirement's precision style (e.g. `1.2` stays two-component if possible
...) — this widens or shifts bounds without needlessly increasing
specificity" (spec section 4.1).  Present components are moved to the target
version's components; absent components stay absent; non-wildcard
comparators take the target's pre-release. -/
def shiftComparator (version : SemVer) (c : SemComparator) : SemComparator :=
  { c with
    major := version.major
    minor := c.minor.map (fun _ => version.minor)
    patch := c.patch.map (fun _ => version.patch)
    pre := if c.op == SemOp.Wildcard then c.pre else version.pre }

/-- Modelled from the spec: the rewritten requirement text — every
comparator shifted to the target version and rendered, with a leading caret
kept implicit when the old requirement's was. -/
def renderUpgraded (req : String) (comps : SemVersionReq) (version : SemVer) :
    String :=
  let t := reqToString (comps.map (shiftComparator version))
  if strStartsWith t "^" ∧ ¬strStartsWith req "^" then strDrop t 1 else t

/-- Modelled from the spec: `cargo_edit::upgrade_requirement` (the
Requirement Comparator's `minimal_upgrade`, spec section 4.1), absent from
the analysed sources.  It errs exactly when the old requirement is
unparsable ("Err if the old requirement is unparsable"); it rewrites every
comparator precision-preservingly to the target version (scenario: old
requirement `1.2` with target `1.5.0` yields `1.5`); it returns `none` when
the rewritten text equals the old text (no change needed) — the spec's
scenario shows that an old requirement that merely matches the target is
still rewritten, so "already matches" is read as textual fixpoint. -/
def upgrade_requirement (req : String) (version : SemVer) :
    Except String (Option String) :=
  match parseVersionReq req with
  | none => .error "unsupported version requirement"
  | some [] => .ok none
  | some comps =>
    if renderUpgraded req comps version = req then .ok none
    else .ok (some (renderUpgraded req comps version))

/-! ## The per-dependency decision logic of `exec`

`exec` (upgrade.rs lines 125-354) loops over target packages, their
dependency tables and entries.  The model below flattens a package's tables
into one entry list (table boundaries influence nothing the claims mention),
replaces the registry collaborator by an oracle function, and makes the
mutable flags explicit.  Terminal output other than the final notes is
dropped. -/

/-- The configuration flags of `UpgradeArgs` that reach the engine. -/
structure Args where
  pinned : Bool
  to_lockfile : Bool
  locked : Bool
  dry_run : Bool
  exclude : List String
deriving Repr

/-- The outcome of `Dependency::from_toml` for one entry: the crate name, an
optional rename (the table key when the entry declares `package = ...`), the
optional version requirement (absent for path/git/workspace sources) and
whether the source is a registry source. -/
structure DepToml where
  name : String
  rename : Option String
  version : Option String
  registry_source : Bool
deriving DecidableEq, Repr

/-- Embeds `Dependency::toml_key`: the rename when present, the crate name
otherwise. -/
def tomlKey (d : DepToml) : String := d.rename.getD d.name

/-- One `(dep_key, dep_item)` pair of a dependency table; `parsed = none`
models a `Dependency::from_toml` failure (warned about and skipped). -/
structure Entry where
  key : String
  parsed : Option DepToml
deriving Repr

/-- One target package: its name and the flattened entries of its dependency
tables, in file order. -/
structure Package where
  name : String
  entries : List Entry
deriving Repr

/-- The external collaborators: `get_latest_dependency` as an oracle from
(crate name, prerelease-allowed) to an optional latest version string
(`.ok()` already applied, upgrade.rs line 247), and the lockfile snapshot. -/
structure Env where
  latest : String → Bool → Option String
  locked : List LockedPkg

/-- Association-list lookup mirroring `selected_dependencies.get` on the
`IndexMap<String, Option<String>>` of user-selected dependencies. -/
def selLookup (selected : List (String × Option String)) (k : String) :
    Option (Option String) :=
  match selected with
  | [] => none
  | (a, b) :: rest => if a = k then some b else selLookup rest k

/-- The pin check (upgrade.rs lines 200-211): with the pin-override flag
unset, a rename or a pinned old requirement yields reason `Pinned` (the two
`get_or_insert` calls collapse to one condition). -/
def pinReason (argsPinned : Bool) (rename : Option String)
    (old_version_req : String) : Option Reason :=
  if !argsPinned && (rename.isSome || is_pinned_req old_version_req) then
    some Reason.Pinned
  else none

/-- The `new_version_req` computation (upgrade.rs lines 252-296) for one
dependency, given the pin-check result, the user-selected requirement slot,
the locked version and the latest version.  Returns the new requirement and
the possibly-updated reason; the `?` on `locked_version.parse()` /
`latest_version.parse()` surfaces as an error. -/
def computeNewVersionReq (toLockfile : Bool) (selVal : Option (Option String))
    (reason : Option Reason) (old_version_req : String)
    (locked_version : Option String) (latest_version : Option String) :
    Except String (String × Option Reason) :=
  if reason.isSome then .ok (old_version_req, reason)
  else
    match selVal with
    | some (some new_version_req) => .ok (new_version_req, reason)
    | _ =>
      if toLockfile then
        match locked_version with
        | some locked_version =>
          match parseSemVer locked_version with
          | none => .error "unexpected version"
          | some new_version =>
            match upgrade_requirement old_version_req new_version with
            | .ok (some version_req) => .ok (version_req, reason)
            | .error _ => .ok (locked_version, reason)
            | .ok none => .ok (old_version_req, reason)
        | none => .ok (old_version_req, reason)
      else
        match latest_version with
        | some latest_version =>
          match parseSemVer latest_version with
          | none => .error "unexpected version"
          | some new_version =>
            -- `let mut new_version_req = latest_version.clone()` then the
            -- match on `upgrade_requirement`, inlined per outcome
            match upgrade_requirement old_version_req new_version with
            | .ok (some version_req) =>
              if version_req = old_version_req then
                .ok (old_version_req, reason)
              else if old_version_compatible old_version_req latest_version
                  then .ok (old_version_req, some Reason.Compatible)
              else .ok (version_req, reason)
            | .error _ =>
              if latest_version = old_version_req then
                .ok (old_version_req, reason)
              else if old_version_compatible old_version_req latest_version
                  then .ok (old_version_req, some Reason.Compatible)
              else .ok (latest_version, reason)
            | .ok none => .ok (old_version_req, reason)
        | none => .ok (old_version_req, reason)

/-- The record emission (upgrade.rs lines 297-312): when the requirement is
unchanged and no reason was set, the reason becomes `Unchanged`; the second
component reports whether `set_dep_version` mutated the table entry (exactly
when the requirement changed). -/
def finalizeDep (d : DepToml) (old_version_req : String)
    (locked_version : Option String) (latest_version : Option String)
    (res : String × Option Reason) : Dep × Bool :=
  let new_version_req := res.1
  let reason :=
    if new_version_req = old_version_req then some (res.2.getD Reason.Unchanged)
    else res.2
  ({ name := tomlKey d
     old_version_req := old_version_req
     locked_version := locked_version
     latest_version := latest_version
     new_version_req := new_version_req
     reason := reason },
   new_version_req ≠ old_version_req)

/-- One iteration of the entry loop (upgrade.rs lines 159-312): the filters
(selection set, exclusion set, unparsable entry, requirement-less source)
skip with `none`; otherwise the decision record and the mutation flag are
produced.  Registry-index refresh (lines 222-234) is an external collaborator
and is not modelled. -/
def processEntry (args : Args) (selected : List (String × Option String))
    (env : Env) (e : Entry) : Except String (Option (Dep × Bool)) :=
  if !selected.isEmpty && (selLookup selected e.key).isNone then .ok none
  else if args.exclude.contains e.key then .ok none
  else
    match e.parsed with
    | none => .ok none
    | some dependency =>
      match dependency.version with
      | none => .ok none
      | some old_version_req =>
        match computeNewVersionReq args.to_lockfile
            (selLookup selected (tomlKey dependency))
            (pinReason args.pinned dependency.rename old_version_req)
            old_version_req
            (find_locked_version dependency.name old_version_req env.locked)
            (if dependency.registry_source then
              env.latest dependency.name (strContains old_version_req '-')
             else none) with
        | .error msg => .error msg
        | .ok res =>
          .ok (some (finalizeDep dependency old_version_req
            (find_locked_version dependency.name old_version_req env.locked)
            (if dependency.registry_source then
              env.latest dependency.name (strContains old_version_req '-')
             else none) res))

/-- The entry loop over one package's tables: collects the processed keys
(inserted before any filter, upgrade.rs line 161), the emitted records and
the crate-modified flag, stopping at the first error (whose entry key is
still recorded). -/
def processEntries (args : Args) (selected : List (String × Option String))
    (env : Env) :
    List Entry → List String × List Dep × Bool × Option String
  | [] => ([], [], false, none)
  | e :: rest =>
    match processEntry args selected env e with
    | .error msg => ([e.key], [], false, some msg)
    | .ok none =>
      match processEntries args selected env rest with
      | (ks, rs, m, err) => (e.key :: ks, rs, m, err)
    | .ok (some (dep, modified)) =>
      match processEntries args selected env rest with
      | (ks, rs, m, err) => (e.key :: ks, dep :: rs, modified || m, err)

/-- The running aggregate of the package loop. -/
structure LoopState where
  processedKeys : List String
  records : List Dep
  writes : List String
  anyModified : Bool
deriving DecidableEq, Repr

/-- The package loop (upgrade.rs lines 152-321): after a package's entries,
its manifest is written when not in dry-run or locked mode and the crate was
modified; an entry error aborts the loop (later packages untouched). -/
def execLoop (args : Args) (selected : List (String × Option String))
    (env : Env) : List Package → LoopState → LoopState × Option String
  | [], st => (st, none)
  | p :: rest, st =>
    match processEntries args selected env p.entries with
    | (ks, rs, m, some msg) =>
      ({ st with
          processedKeys := st.processedKeys ++ ks
          records := st.records ++ rs
          anyModified := st.anyModified || m }, some msg)
    | (ks, rs, m, none) =>
      execLoop args selected env rest
        (if !args.dry_run && !args.locked && m then
          { st with
              processedKeys := st.processedKeys ++ ks
              records := st.records ++ rs
              anyModified := st.anyModified || m
              writes := st.writes ++ [p.name] }
         else
          { st with
              processedKeys := st.processedKeys ++ ks
              records := st.records ++ rs
              anyModified := st.anyModified || m })

/-- The hard-failure message for user-named dependencies never encountered
(upgrade.rs lines 331-340): singular/plural wording around the names joined
by `, `. -/
def missingDepsMessage (unused : List String) : String :=
  if unused.length = 1 then
    "dependency " ++ String.intercalate ", " unused ++ " doesn't exist"
  else
    "dependencies " ++ String.intercalate ", " unused ++ " don't exist"

/-- Note printed when a pinned dependency was skipped. -/
def pinnedNote : String :=
  "Re-run with `--pinned` to upgrade pinned version requirements"

/-- Note printed when a compatible dependency was left unchanged. -/
def toLockfileNote : String :=
  "Re-run with `--to-lockfile` to upgrade compatible version requirements"

/-- The observable outcome of one `exec` run. -/
structure ExecOut where
  result : Except String Unit
  records : List Dep
  writes : List String
  notes : List String
deriving Repr

/-- The whole `exec` run (upgrade.rs lines 125-354) after argument
resolution: the package loop, then the `--locked` bail-out, the
missing-dependency check and the final notes.  `pinned_present` and
`compatible_present` are recovered from the emitted records: on the paths
where the notes are reachable the flags agree with "some record carries that
reason".  The post-loop lockfile re-resolution (line 327) is an external
collaborator modelled as succeeding. -/
def execModel (args : Args) (selected : List (String × Option String))
    (env : Env) (packages : List Package) : ExecOut :=
  match execLoop args selected env packages ⟨[], [], [], false⟩ with
  | (st, some msg) => ⟨.error msg, st.records, st.writes, []⟩
  | (st, none) =>
    if st.anyModified && args.locked then
      ⟨.error "cannot upgrade due to `--locked`", st.records, st.writes, []⟩
    else if ((selected.map Prod.fst).filter
        (fun k => !st.processedKeys.contains k)).isEmpty then
      ⟨.ok (), st.records, st.writes,
        (if st.records.any (fun d => d.reason == some Reason.Pinned) then
          [pinnedNote] else [])
        ++ (if st.records.any (fun d => d.reason == some Reason.Compatible)
            then [toLockfileNote] else [])⟩
    else
      ⟨.error (missingDepsMessage ((selected.map Prod.fst).filter
          (fun k => !st.processedKeys.contains k))),
        st.records, st.writes, []⟩

/-! ## The remove pass
(`crates/cargo-remove/src/cargo/ops/cargo_remove/mod.rs`)

`remove` iterates the requested dependency names with
`.map(|dep| { ...; let result = manifest.remove_from_table(...); manifest.gc_dep(dep); result })
.collect::<CargoResult<Vec<_>>>()?`:
each closure attempts the removal and then unconditionally runs `gc_dep`;
the lazy `collect` into `Result` stops consuming after the first failing
name, and then the `?` skips the final write.  `remove_from_table` and
`gc_dep` are methods of the manifest model living in `manifest.rs`, which is
not among the analysed sources; they are modelled from the specification. -/

/-- The slice of a manifest the remove pass touches: the dependency table of
the selected section as `(key, package name)` pairs, and the `[features]`
table mapping feature names to activation lists. -/
structure RmManifest where
  deps : List (String × String)
  features : List (String × List String)
deriving DecidableEq, Repr

/-- Whether a dependency table entry declares `name`, by key or by package
name. -/
def rmEntryIs (name : String) (kv : String × String) : Bool :=
  kv.1 == name || kv.2 == name

/-- Modelled from the spec: `LocalManifest::remove_from_table` (spec section
4.2) — "removes the entry matching `name` (supports both the literal key and
a renamed package name ...); fails with `DependencyNotFound`" when no entry
matches.  The first matching entry is removed; the `Bool` reports success. -/
def remove_from_table (m : RmManifest) (name : String) : RmManifest × Bool :=
  if m.deps.any (rmEntryIs name) then
    ({ m with deps := m.deps.eraseP (rmEntryIs name) }, true)
  else (m, false)

/-- Whether an activation string references dependency `name`: the bare
name, `name/feature`, or the weak-optional `name?/feature`. -/
def activationRefs (name : String) (act : String) : Bool :=
  act == name || strStartsWith act (name ++ "/")
    || strStartsWith act (name ++ "?/")

/-- Modelled from the spec: `LocalManifest::gc_dep` (spec section 4.2) —
when `name` is no longer declared in any dependency table, strips every
activation of the form `name` or `name/feature` (and weak-optional
`name?/...`) from the `[features]` lists; emptied feature lists are kept
(the spec leaves pruning open, section 9). -/
def gc_dep (m : RmManifest) (name : String) : RmManifest :=
  if m.deps.any (rmEntryIs name) then m
  else
    { m with
      features := m.features.map (fun f =>
        (f.1, f.2.filter (fun act => !activationRefs name act))) }

/-- Observable events of one remove pass. -/
inductive RmEvent where
  | attempt (dep : String) (ok : Bool)
  | gcRun (dep : String)
  | warnDryRun
  | writeManifest
deriving DecidableEq, Repr

/-- The name loop of `remove` (mod.rs lines 44-72): for each requested name
in order, attempt the table removal, then run `gc_dep` regardless of the
outcome; the lazy `collect::<CargoResult<_>>` stops after the first failing
name.  The final `Bool` is `false` when a failure stopped the loop. -/
def removeDeps (m : RmManifest) :
    List String → RmManifest × List RmEvent × Bool
  | [] => (m, [], true)
  | dep :: rest =>
    match remove_from_table m dep with
    | (m1, true) =>
      match removeDeps (gc_dep m1 dep) rest with
      | (m3, evs, r) => (m3, .attempt dep true :: .gcRun dep :: evs, r)
    | (m1, false) =>
      (gc_dep m1 dep, [.attempt dep false, .gcRun dep], false)

/-- The whole remove pass (mod.rs lines 33-84): on failure the `?` skips the
write; otherwise dry-run warns instead of writing. -/
def removePass (m : RmManifest) (dependencies : List String)
    (dryRun : Bool) : RmManifest × List RmEvent × Bool :=
  match removeDeps m dependencies with
  | (m1, evs, false) => (m1, evs, false)
  | (m1, evs, true) =>
    if dryRun then (m1, evs ++ [.warnDryRun], true)
    else (m1, evs ++ [.writeManifest], true)

/-! ## Helper lemmas -/

/-- Shape of a successful `computeNewVersionReq`: the reason either passes
through unchanged or becomes `Compatible` with the requirement kept; an
incoming reason and an outgoing reason both force the requirement to stay
the old one. -/
theorem computeNewVersionReq_ok_inv {tl : Bool} {sv : Option (Option String)}
    {r0 : Option Reason} {old : String} {lv ls : Option String}
    {new : String} {r : Option Reason}
    (h : computeNewVersionReq tl sv r0 old lv ls = .ok (new, r)) :
    (r = r0 ∨ (r0 = none ∧ r = some Reason.Compatible ∧ new = old)) ∧
      (r0.isSome → new = old) := by
  unfold computeNewVersionReq at h
  split at h
  · cases h
    exact ⟨Or.inl rfl, fun _ => rfl⟩
  · rename_i hr0
    rcases r0 with _ | x
    case some => simp at hr0
    split at h
    · cases h
      exact ⟨Or.inl rfl, fun hs => by simp at hs⟩
    · split at h
      · -- lockfile-mode
        split at h
        · split at h
          · cases h
          · split at h <;> cases h <;>
              exact ⟨Or.inl rfl, fun hs => by simp at hs⟩
        · cases h
          exact ⟨Or.inl rfl, fun hs => by simp at hs⟩
      · -- latest-mode
        split at h
        · split at h
          · cases h
          · split at h
            · split at h
              · cases h
                exact ⟨Or.inl rfl, fun hs => by simp at hs⟩
              · split at h
                · cases h
                  exact ⟨Or.inr ⟨rfl, rfl, rfl⟩, fun hs => by simp at hs⟩
                · cases h
                  exact ⟨Or.inl rfl, fun hs => by simp at hs⟩
            · split at h
              · cases h
                exact ⟨Or.inl rfl, fun hs => by simp at hs⟩
              · split at h
                · cases h
                  exact ⟨Or.inr ⟨rfl, rfl, rfl⟩, fun hs => by simp at hs⟩
                · cases h
                  exact ⟨Or.inl rfl, fun hs => by simp at hs⟩
            · cases h
              exact ⟨Or.inl rfl, fun hs => by simp at hs⟩
        · cases h
          exact ⟨Or.inl rfl, fun hs => by simp at hs⟩

/-- A successful `computeNewVersionReq` that reports a reason keeps the old
requirement. -/
theorem computeNewVersionReq_some_reason {tl : Bool}
    {sv : Option (Option String)} {r0 : Option Reason} {old : String}
    {lv ls : Option String} {new : String} {r : Option Reason}
    (h : computeNewVersionReq tl sv r0 old lv ls = .ok (new, r))
    (hr : r.isSome) : new = old := by
  rcases computeNewVersionReq_ok_inv h with ⟨hc, hpass⟩
  rcases hc with hc | ⟨_, _, hc⟩
  · exact hpass (hc ▸ hr)
  · exact hc

/-- The modelled `upgrade_requirement` only errs when the old requirement is unparsable. -/
theorem upgrade_requirement_error {req : String} {v : SemVer} {e : String}
    (h : upgrade_requirement req v = .error e) :
    parseVersionReq req = none := by
  unfold upgrade_requirement at h
  split at h
  · assumption
  · cases h
  · split at h <;> cases h

/-- The function `old_version_compatible` is `false` on an unparsable old requirement. -/
theorem old_version_compatible_unparsable {old ls : String}
    (h : parseVersionReq old = none) :
    old_version_compatible old ls = false := by
  unfold old_version_compatible
  rw [h]

/-- Anatomy of a `processEntry` call that emitted a record: the entry parsed
with a version requirement, the requirement computation succeeded, and the
record is its finalization. -/
theorem processEntry_ok_some {args : Args}
    {selected : List (String × Option String)} {env : Env} {e : Entry}
    {dep : Dep} {modified : Bool}
    (h : processEntry args selected env e = .ok (some (dep, modified))) :
    ∃ d old res,
      e.parsed = some d ∧ d.version = some old ∧
      computeNewVersionReq args.to_lockfile (selLookup selected (tomlKey d))
        (pinReason args.pinned d.rename old) old
        (find_locked_version d.name old env.locked)
        (if d.registry_source then env.latest d.name (strContains old '-')
         else none) = .ok res ∧
      (dep, modified) = finalizeDep d old
        (find_locked_version d.name old env.locked)
        (if d.registry_source then env.latest d.name (strContains old '-')
         else none) res := by
  unfold processEntry at h
  split at h
  · simp at h
  · split at h
    · simp at h
    · split at h
      · simp at h
      · rename_i d hd
        split at h
        · simp at h
        · rename_i old hold
          split at h
          · cases h
          · rename_i res hres
            exact ⟨d, old, res, hd, hold, hres, by
              injection h with h
              injection h with h
              exact h.symm⟩

/-- C10 helper: the two components of `finalizeDep`. -/
theorem finalizeDep_spec (d : DepToml) (old : String)
    (lv ls : Option String) (res : String × Option Reason) :
    finalizeDep d old lv ls res =
      ({ name := tomlKey d
         old_version_req := old
         locked_version := lv
         latest_version := ls
         new_version_req := res.1
         reason :=
           if res.1 = old then some (res.2.getD Reason.Unchanged) else res.2 },
       decide ¬(res.1 = old)) := rfl

/-! ## Claim theorems -/

/-- Scenario shorthand: a run with no flag set. -/
def noFlags : Args where
  pinned := false
  to_lockfile := false
  locked := false
  dry_run := false
  exclude := []

/-- Scenario shorthand: a registry answering `v` for every crate, no
lockfile entries. -/
def latestEnv (v : String) : Env where
  latest := fun _ _ => some v
  locked := []

/-- Scenario shorthand: a plain registry dependency parsed from one entry. -/
def regToml (k req : String) : DepToml where
  name := k
  rename := none
  version := some req
  registry_source := true

/-- Scenario shorthand: a table entry holding a plain registry dependency. -/
def regEntry (k req : String) : Entry where
  key := k
  parsed := some (regToml k req)

/-- Scenario shorthand: a decision record literal. -/
def mkDep (nm old : String) (lk lt : Option String) (new : String)
    (r : Option Reason) : Dep where
  name := nm
  old_version_req := old
  locked_version := lk
  latest_version := lt
  new_version_req := new
  reason := r

/-- C10: every emitted decision record has reason `None` exactly when the
new requirement differs from the old one, and the in-place mutation
(`set_dep_version`) happens for an entry exactly when its new requirement
differs from its old one. -/
theorem c10_reason_none_iff_changed (args : Args)
    (selected : List (String × Option String)) (env : Env) (e : Entry)
    (dep : Dep) (modified : Bool)
    (h : processEntry args selected env e = .ok (some (dep, modified))) :
    (dep.reason = none ↔ dep.new_version_req ≠ dep.old_version_req) ∧
      (modified = true ↔ dep.new_version_req ≠ dep.old_version_req) := by
  obtain ⟨d, old, res, _, _, hc, hf⟩ := processEntry_ok_some h
  rcases res with ⟨new, r⟩
  rw [finalizeDep_spec] at hf
  obtain ⟨hdep, hmod⟩ := Prod.mk.injEq .. ▸ hf
  subst hdep hmod
  by_cases hno : new = old
  · simp only [hno]
    simp
  · have hr : r = none := by
      rcases r with _ | x
      · rfl
      · exact absurd (computeNewVersionReq_some_reason hc rfl) hno
    subst hr
    simp only [if_neg hno]
    simp [hno]

/-- C10 witness: a concrete latest-mode entry whose requirement changes. -/
theorem c10_witness :
    processEntry noFlags [] (latestEnv "0.2.3") (regEntry "foo" "0.1")
      = .ok (some (mkDep "foo" "0.1" none (some "0.2.3") "0.2" none, true)) ∧
      ((mkDep "foo" "0.1" none (some "0.2.3") "0.2" none).reason = none ↔
        (mkDep "foo" "0.1" none (some "0.2.3") "0.2" none).new_version_req ≠
          (mkDep "foo" "0.1" none (some "0.2.3") "0.2"
            none).old_version_req) ∧
      (true = true ↔
        (mkDep "foo" "0.1" none (some "0.2.3") "0.2" none).new_version_req ≠
          (mkDep "foo" "0.1" none (some "0.2.3") "0.2"
            none).old_version_req) := by
  refine ⟨by decide, ?_⟩
  exact c10_reason_none_iff_changed noFlags [] (latestEnv "0.2.3")
    (regEntry "foo" "0.1") (mkDep "foo" "0.1" none (some "0.2.3") "0.2" none)
    true (by decide)

/-- C5: an emitted record carries reason `Pinned` only when the pin-override
flag is unset and the entry is a rename or its old requirement is pinned,
and then the new requirement equals the old one and no table mutation
happened. -/
theorem c5_pinned_reason_invariant (args : Args)
    (selected : List (String × Option String)) (env : Env) (e : Entry)
    (d : DepToml) (old : String) (dep : Dep) (modified : Bool)
    (hd : e.parsed = some d) (hv : d.version = some old)
    (h : processEntry args selected env e = .ok (some (dep, modified)))
    (hr : dep.reason = some Reason.Pinned) :
    args.pinned = false ∧ (d.rename.isSome || is_pinned_req old) = true ∧
      dep.old_version_req = old ∧ dep.new_version_req = old ∧
      modified = false := by
  obtain ⟨d', old', res, hd', hv', hc, hf⟩ := processEntry_ok_some h
  rw [hd] at hd'
  injection hd' with hd'
  subst hd'
  rw [hv] at hv'
  injection hv' with hv'
  subst hv'
  rcases res with ⟨new, r⟩
  rw [finalizeDep_spec] at hf
  obtain ⟨hdep, hmod⟩ := Prod.mk.injEq .. ▸ hf
  subst hdep hmod
  simp only [Dep.reason] at hr
  have hno : new = old := by
    by_contra hne
    rw [if_neg hne] at hr
    exact hne (computeNewVersionReq_some_reason hc (by rw [hr]; rfl))
  rw [if_pos hno] at hr
  have hrp : r = some Reason.Pinned := by
    rcases r with _ | x
    · simp at hr
    · simp only [Option.getD_some] at hr
      rw [hr]
  have hr0 : pinReason args.pinned d.rename old = some Reason.Pinned := by
    rcases (computeNewVersionReq_ok_inv hc).1 with hcase | ⟨_, hcase, _⟩
    · rw [← hcase, hrp]
    · rw [hrp] at hcase
      cases hcase
  unfold pinReason at hr0
  split at hr0
  · rename_i hcond
    rw [Bool.and_eq_true, Bool.not_eq_true'] at hcond
    exact ⟨hcond.1, hcond.2, rfl, hno, by simp [hno]⟩
  · cases hr0

/-- C5 witness: a concrete pinned entry (`=1.0.0`, pin-override unset). -/
theorem c5_witness :
    noFlags.pinned = false ∧
      ((regToml "foo" "=1.0.0").rename.isSome
        || is_pinned_req "=1.0.0") = true ∧
      (mkDep "foo" "=1.0.0" none (some "1.2.0") "=1.0.0"
        (some Reason.Pinned)).old_version_req = "=1.0.0" ∧
      (mkDep "foo" "=1.0.0" none (some "1.2.0") "=1.0.0"
        (some Reason.Pinned)).new_version_req = "=1.0.0" ∧
      false = false := by
  exact c5_pinned_reason_invariant noFlags [] (latestEnv "1.2.0")
    (regEntry "foo" "=1.0.0") (regToml "foo" "=1.0.0") "=1.0.0"
    (mkDep "foo" "=1.0.0" none (some "1.2.0") "=1.0.0" (some Reason.Pinned))
    false rfl rfl (by decide) rfl

/-- C4: `is_pinned_req` is `true` for every requirement that parses with a
comparator using `Exact`, `Less`, `LessEq` or `Wildcard`; it is `false` for
requirements all of whose comparators use `Greater`, `GreaterEq`, `Caret` or
`Tilde`, for the plain wildcard `*` (which parses to no comparators), and
for unparsable requirement strings. -/
theorem c4_is_pinned_classification :
    (∀ s r, parseVersionReq s = some r →
      ((∃ c ∈ r, c.op = SemOp.Exact ∨ c.op = SemOp.Less ∨
          c.op = SemOp.LessEq ∨ c.op = SemOp.Wildcard) →
        is_pinned_req s = true) ∧
      ((∀ c ∈ r, c.op = SemOp.Greater ∨ c.op = SemOp.GreaterEq ∨
          c.op = SemOp.Caret ∨ c.op = SemOp.Tilde) →
        is_pinned_req s = false)) ∧
    is_pinned_req "*" = false ∧
    (∀ s, parseVersionReq s = none → is_pinned_req s = false) := by
  refine ⟨fun s r hp => ⟨fun hex => ?_, fun hall => ?_⟩, by decide,
    fun s hn => ?_⟩
  · unfold is_pinned_req
    rw [hp]
    rcases hex with ⟨c, hc, hop⟩
    refine List.any_eq_true.mpr ⟨c, hc, ?_⟩
    rcases hop with h | h | h | h <;> simp [h]
  · unfold is_pinned_req
    rw [hp]
    rw [List.any_eq_false]
    intro c hc
    rcases hall c hc with h | h | h | h <;> simp [h]
  · unfold is_pinned_req
    rw [hn]

/-- C4 witness: the classification applied to concrete requirement strings
of each kind. -/
theorem c4_witness :
    is_pinned_req "=3" = true ∧ is_pinned_req "<3" = true ∧
      is_pinned_req "3.*" = true ∧ is_pinned_req ">=3" = false ∧
      is_pinned_req "~1.2" = false ∧ is_pinned_req "*" = false ∧
      is_pinned_req "not-a-req" = false := by
  refine ⟨?_, ?_, ?_, ?_, ?_, ?_, ?_⟩
  · exact (c4_is_pinned_classification.1 "=3"
      [{ op := SemOp.Exact, major := 3, minor := none, patch := none,
         pre := [] }] (by decide)).1 (by decide)
  · exact (c4_is_pinned_classification.1 "<3"
      [{ op := SemOp.Less, major := 3, minor := none, patch := none,
         pre := [] }] (by decide)).1 (by decide)
  · exact (c4_is_pinned_classification.1 "3.*"
      [{ op := SemOp.Wildcard, major := 3, minor := none, patch := none,
         pre := [] }] (by decide)).1 (by decide)
  · exact (c4_is_pinned_classification.1 ">=3"
      [{ op := SemOp.GreaterEq, major := 3, minor := none, patch := none,
         pre := [] }] (by decide)).2 (by decide)
  · exact (c4_is_pinned_classification.1 "~1.2"
      [{ op := SemOp.Tilde, major := 1, minor := some 2, patch := none,
         pre := [] }] (by decide)).2 (by decide)
  · exact c4_is_pinned_classification.2.1
  · exact c4_is_pinned_classification.2.2 "not-a-req" (by decide)

/-- The `for` loop of `find_locked_version` is `List.find?` followed by the
build-stripping rendering. -/
theorem findLockedLoop_eq (name : String) (req : SemVersionReq) :
    ∀ locked : List LockedPkg,
      find_locked_version.findLockedLoop name req locked =
        (locked.find?
          (fun p => name == p.name && reqMatches req p.version)).map
          (fun p => versionToString { p.version with build := [] })
  | [] => rfl
  | p :: rest => by
    unfold find_locked_version.findLockedLoop
    by_cases h : name = p.name ∧ reqMatches req p.version = true
    · rw [if_pos h, List.find?_cons_of_pos _ (by simp [h.1, h.2])]
      rfl
    · rw [if_neg h, List.find?_cons_of_neg _ (by simpa using h),
        findLockedLoop_eq name req rest]

/-- C6: the locked target version is the first lockfile package whose name
equals the dependency name and whose version satisfies the old requirement
(`List.find?` over the lockfile order), and in lockfile-mode an entry
without such a package keeps its old requirement unmutated. -/
theorem c6_locked_lookup :
    (∀ (name old : String) (locked : List LockedPkg) (req : SemVersionReq),
      parseVersionReq old = some req →
      find_locked_version name old locked =
        (locked.find?
          (fun p => name == p.name && reqMatches req p.version)).map
          (fun p => versionToString { p.version with build := [] })) ∧
    (∀ (args : Args) (selected : List (String × Option String)) (env : Env)
        (e : Entry) (d : DepToml) (old : String),
      args.to_lockfile = true →
      (!selected.isEmpty && (selLookup selected e.key).isNone) = false →
      args.exclude.contains e.key = false →
      e.parsed = some d → d.version = some old →
      pinReason args.pinned d.rename old = none →
      (∀ r, selLookup selected (tomlKey d) ≠ some (some r)) →
      find_locked_version d.name old env.locked = none →
      ∃ dep modified,
        processEntry args selected env e = .ok (some (dep, modified)) ∧
          dep.old_version_req = old ∧ dep.new_version_req = old ∧
          modified = false) := by
  constructor
  · intro name old locked req hreq
    unfold find_locked_version
    rw [hreq]
    exact findLockedLoop_eq name req locked
  · intro args selected env e d old htl hg hexc hd hv hpin hsv hlock
    have hcomp : computeNewVersionReq args.to_lockfile
        (selLookup selected (tomlKey d))
        (pinReason args.pinned d.rename old) old
        (find_locked_version d.name old env.locked)
        (if d.registry_source then env.latest d.name (strContains old '-')
         else none) = .ok (old, none) := by
      rw [hpin, hlock, htl]
      unfold computeNewVersionReq
      rcases hsel : selLookup selected (tomlKey d) with _ | ov
      · simp
      · rcases ov with _ | r
        · simp
        · exact absurd hsel (hsv r)
    refine ⟨(finalizeDep d old (find_locked_version d.name old env.locked)
        (if d.registry_source then env.latest d.name (strContains old '-')
         else none) (old, none)).1,
      (finalizeDep d old (find_locked_version d.name old env.locked)
        (if d.registry_source then env.latest d.name (strContains old '-')
         else none) (old, none)).2, ?_, ?_, ?_, ?_⟩
    · unfold processEntry
      rw [hg]
      simp only [Bool.false_eq_true, if_false]
      rw [hexc]
      simp only [Bool.false_eq_true, if_false, hd, hv, hcomp]
    · rw [finalizeDep_spec]
    · rw [finalizeDep_spec]
    · rw [finalizeDep_spec]
      simp

/-- C6 witness: concrete lockfile lookups — `1.2` picks the first matching
locked `foo` (build metadata stripped), and an unmatched `2.0` entry stays
unchanged in lockfile-mode. -/
theorem c6_witness :
    (find_locked_version "foo" "1.2"
      [{ name := "bar",
         version := { major := 9, minor := 0, patch := 0, pre := [],
                      build := [] } },
       { name := "foo",
         version := { major := 1, minor := 4, patch := 2, pre := [],
                      build := ["abc"] } },
       { name := "foo",
         version := { major := 1, minor := 3, patch := 0, pre := [],
                      build := [] } }] = some "1.4.2") ∧
    (∃ dep modified, processEntry { noFlags with to_lockfile := true } []
        { latest := fun _ _ => none, locked := [] } (regEntry "foo" "2.0")
        = .ok (some (dep, modified)) ∧
      dep.old_version_req = "2.0" ∧ dep.new_version_req = "2.0" ∧
      modified = false) := by
  constructor
  · have h := c6_locked_lookup.1 "foo" "1.2"
      [{ name := "bar",
         version := { major := 9, minor := 0, patch := 0, pre := [],
                      build := [] } },
       { name := "foo",
         version := { major := 1, minor := 4, patch := 2, pre := [],
                      build := ["abc"] } },
       { name := "foo",
         version := { major := 1, minor := 3, patch := 0, pre := [],
                      build := [] } }]
      [{ op := SemOp.Caret, major := 1, minor := some 2, patch := none,
         pre := [] }] (by decide)
    rw [h]
    decide
  · exact c6_locked_lookup.2 { noFlags with to_lockfile := true } []
      { latest := fun _ _ => none, locked := [] } (regEntry "foo" "2.0")
      (regToml "foo" "2.0") "2.0" rfl (by decide) (by decide) rfl rfl
      (by decide) (fun r h => by simp [selLookup] at h) (by decide)

/-- C7: when `upgrade_requirement` errs for a dependency with a known target
version, the new requirement falls back to the bare target version string —
the locked version in lockfile-mode, the latest version in latest-mode —
and in latest-mode the entry still emits a decision record (it is not
dropped). -/
theorem c7_error_fallback :
    (∀ (sv : Option (Option String)) (old lv : String) (v : SemVer)
        (ls : Option String) (err : String),
      (∀ r, sv ≠ some (some r)) →
      parseSemVer lv = some v →
      upgrade_requirement old v = .error err →
      computeNewVersionReq true sv none old (some lv) ls = .ok (lv, none)) ∧
    (∀ (args : Args) (selected : List (String × Option String)) (env : Env)
        (e : Entry) (d : DepToml) (old ls : String) (v : SemVer)
        (err : String),
      args.to_lockfile = false →
      (!selected.isEmpty && (selLookup selected e.key).isNone) = false →
      args.exclude.contains e.key = false →
      e.parsed = some d → d.version = some old →
      pinReason args.pinned d.rename old = none →
      (∀ r, selLookup selected (tomlKey d) ≠ some (some r)) →
      d.registry_source = true →
      env.latest d.name (strContains old '-') = some ls →
      parseSemVer ls = some v →
      upgrade_requirement old v = .error err →
      ∃ dep modified,
        processEntry args selected env e = .ok (some (dep, modified)) ∧
          dep.new_version_req = ls) := by
  constructor
  · intro sv old lv v ls err hsv hpv hup
    unfold computeNewVersionReq
    rcases hsel : sv with _ | ov
    · simp [hpv, hup]
    · rcases ov with _ | r
      · simp [hpv, hup]
      · exact absurd hsel (hsv r)
  · intro args selected env e d old ls v err htl hg hexc hd hv hpin hsv hreg
      hlat hpv hup
    have hpn : parseVersionReq old = none := upgrade_requirement_error hup
    have hcomp : computeNewVersionReq args.to_lockfile
        (selLookup selected (tomlKey d))
        (pinReason args.pinned d.rename old) old
        (find_locked_version d.name old env.locked)
        (if d.registry_source then env.latest d.name (strContains old '-')
         else none) = .ok (if ls = old then old else ls, none) := by
      rw [hpin, htl, hreg]
      simp only [if_true]
      rw [hlat]
      unfold computeNewVersionReq
      rcases hsel : selLookup selected (tomlKey d) with _ | ov
      · simp only [Option.isSome_none, Bool.false_eq_true, if_false, hpv,
          hup, old_version_compatible_unparsable hpn]
        split <;> simp
      · rcases ov with _ | r
        · simp only [Option.isSome_none, Bool.false_eq_true, if_false, hpv,
            hup, old_version_compatible_unparsable hpn]
          split <;> simp
        · exact absurd hsel (hsv r)
    refine ⟨(finalizeDep d old (find_locked_version d.name old env.locked)
        (if d.registry_source then env.latest d.name (strContains old '-')
         else none) ((if ls = old then old else ls), none)).1,
      (finalizeDep d old (find_locked_version d.name old env.locked)
        (if d.registry_source then env.latest d.name (strContains old '-')
         else none) ((if ls = old then old else ls), none)).2, ?_, ?_⟩
    · unfold processEntry
      rw [hg]
      simp only [Bool.false_eq_true, if_false]
      rw [hexc]
      simp only [Bool.false_eq_true, if_false, hd, hv, hcomp]
    · rw [finalizeDep_spec]
      by_cases hlo : ls = old <;> simp [hlo]

/-- C7 witness: an unparsable old requirement with latest `1.2.0` falls back
to the bare version string in both modes. -/
theorem c7_witness :
    computeNewVersionReq true none none "not-a-req" (some "1.2.0") none
      = .ok ("1.2.0", none) ∧
    (∃ dep modified,
      processEntry noFlags [] (latestEnv "1.2.0")
        (regEntry "foo" "not-a-req") = .ok (some (dep, modified)) ∧
        dep.new_version_req = "1.2.0") := by
  constructor
  · exact c7_error_fallback.1 none "not-a-req" "1.2.0"
      { major := 1, minor := 2, patch := 0, pre := [], build := [] } none
      "unsupported version requirement" (fun r h => by cases h) (by decide)
      (by decide)
  · exact c7_error_fallback.2 noFlags [] (latestEnv "1.2.0")
      (regEntry "foo" "not-a-req") (regToml "foo" "not-a-req") "not-a-req"
      "1.2.0" { major := 1, minor := 2, patch := 0, pre := [], build := [] }
      "unsupported version requirement" rfl (by decide) (by decide) rfl rfl
      (by decide) (fun r h => by simp [selLookup] at h) rfl (by decide)
      (by decide) (by decide)

/-- In the name loop of the remove pass, every attempted name is followed by
its `gc_dep` run. -/
theorem removeDeps_gc (d : String) (ok : Bool) :
    ∀ (m : RmManifest) (deps : List String),
      RmEvent.attempt d ok ∈ (removeDeps m deps).2.1 →
      RmEvent.gcRun d ∈ (removeDeps m deps).2.1 := by
  intro m deps
  induction deps generalizing m with
  | nil => intro h; simp [removeDeps] at h
  | cons dep rest ih =>
    intro h
    unfold removeDeps at h ⊢
    obtain ⟨⟨m1, ok1⟩, hr⟩ : ∃ q, remove_from_table m dep = q := ⟨_, rfl⟩
    rw [hr] at h
    rw [hr]
    rcases ok1 with _ | _
    · dsimp only at h ⊢
      simp only [List.mem_cons, List.not_mem_nil, or_false] at h
      rcases h with h | h
      · injection h with h1 _
        simp [h1]
      · cases h
    · dsimp only at h ⊢
      obtain ⟨⟨m3, evs, r⟩, ht⟩ :
          ∃ q, removeDeps (gc_dep m1 dep) rest = q := ⟨_, rfl⟩
      rw [ht] at h
      rw [ht]
      dsimp only at h ⊢
      simp only [List.mem_cons] at h ⊢
      rcases h with h | h | h
      · injection h with h1 _
        exact Or.inr (Or.inl (by rw [h1]))
      · cases h
      · have hmem := ih (gc_dep m1 dep) (by rw [ht]; exact h)
        rw [ht] at hmem
        exact Or.inr (Or.inr hmem)

/-- C3: for every dependency name whose removal is attempted by the remove
pass, `gc_dep` runs for that name, whether or not `remove_from_table`
succeeded for it. -/
theorem c3_gc_after_every_attempt (m : RmManifest) (deps : List String)
    (dryRun : Bool) (d : String) (ok : Bool)
    (h : RmEvent.attempt d ok ∈ (removePass m deps dryRun).2.1) :
    RmEvent.gcRun d ∈ (removePass m deps dryRun).2.1 := by
  unfold removePass at h ⊢
  obtain ⟨⟨m1, evs, r⟩, hr⟩ : ∃ q, removeDeps m deps = q := ⟨_, rfl⟩
  rw [hr] at h
  rw [hr]
  have hbase : RmEvent.attempt d ok ∈ evs → RmEvent.gcRun d ∈ evs := by
    intro hin
    have h2 := removeDeps_gc d ok m deps (by rw [hr]; exact hin)
    rw [hr] at h2
    exact h2
  rcases r with _ | _
  · dsimp only at h ⊢
    exact hbase h
  · dsimp only at h ⊢
    by_cases hdry : dryRun = true
    · rw [if_pos hdry] at h ⊢
      rw [List.mem_append] at h ⊢
      rcases h with h | h
      · exact Or.inl (hbase h)
      · simp at h
    · rw [if_neg hdry] at h ⊢
      rw [List.mem_append] at h ⊢
      rcases h with h | h
      · exact Or.inl (hbase h)
      · simp at h

/-- C3 witness: removing a name absent from the table fails the removal yet
still runs `gc_dep` for it. -/
theorem c3_witness :
    RmEvent.attempt "foo" false ∈
      (removePass { deps := [("bar", "bar")], features := [] } ["foo"]
        false).2.1 ∧
    RmEvent.gcRun "foo" ∈
      (removePass { deps := [("bar", "bar")], features := [] } ["foo"]
        false).2.1 :=
  ⟨by decide,
   c3_gc_after_every_attempt { deps := [("bar", "bar")], features := [] }
     ["foo"] false "foo" false (by decide)⟩

/-- The C1 scenario run: latest-mode, old requirement `1.2`, latest
`1.5.0`. -/
def c1Run : ExecOut :=
  execModel noFlags [] (latestEnv "1.5.0") [⟨"pkg", [regEntry "foo" "1.2"]⟩]

/-- The C2 scenario run: latest-mode, old requirement `1`, latest
`1.9.0`. -/
def c2Run : ExecOut :=
  execModel noFlags [] (latestEnv "1.9.0") [⟨"pkg", [regEntry "foo" "1"]⟩]

/-- C1 counterexample: in the claimed scenario the requirement is NOT
rewritten to `1.5` with reason `None` and an interesting row — the emitted
record keeps `1.2`, carries reason `Compatible` and is uninteresting. -/
theorem c1_counterexample :
    c1Run.records
      = [mkDep "foo" "1.2" none (some "1.5.0") "1.2"
          (some Reason.Compatible)] ∧
    c1Run.records.map Dep.is_interesting = [false] ∧
    ¬(c1Run.records.map Dep.reason = [none] ∧
      c1Run.records.map Dep.new_version_req = ["1.5"]) := by
  decide

/-- C1 amended: in latest-mode with old requirement `1.2` and latest
`1.5.0`, the upgrade pass leaves the requirement at `1.2` (no table
mutation, no manifest write), emits a record with reason `Compatible`, the
report classifies it as uninteresting, and the run prints the
`--to-lockfile` note. -/
theorem c1_amended :
    c1Run.result = .ok () ∧
    c1Run.records
      = [mkDep "foo" "1.2" none (some "1.5.0") "1.2"
          (some Reason.Compatible)] ∧
    c1Run.records.map Dep.is_interesting = [false] ∧
    c1Run.writes = [] ∧
    c1Run.notes = [toLockfileNote] := by
  decide

/-- C2 counterexample: in the claimed scenario the emitted record does NOT
carry reason `Compatible` and no `--to-lockfile` note is printed — the
reason is `Unchanged`. -/
theorem c2_counterexample :
    c2Run.records.map Dep.reason = [some Reason.Unchanged] ∧
    ¬(c2Run.records.map Dep.reason = [some Reason.Compatible]) ∧
    ¬(toLockfileNote ∈ c2Run.notes) := by
  decide

/-- C2 amended: in latest-mode with old requirement `1` already matching
latest `1.9.0`, the emitted record has reason `Unchanged` with the
requirement left unchanged, no note is printed, and the report classifies
the record as uninteresting. -/
theorem c2_amended :
    c2Run.result = .ok () ∧
    c2Run.records
      = [mkDep "foo" "1" none (some "1.9.0") "1" (some Reason.Unchanged)] ∧
    c2Run.records.map Dep.is_interesting = [false] ∧
    c2Run.notes = [] ∧
    c2Run.writes = [] := by
  decide

/-- An emitted entry was mutated in place exactly when its requirement
changed. -/
theorem processEntry_modified {args : Args}
    {selected : List (String × Option String)} {env : Env} {e : Entry}
    {dep : Dep} {modified : Bool}
    (h : processEntry args selected env e = .ok (some (dep, modified))) :
    modified = true ↔ dep.new_version_req ≠ dep.old_version_req := by
  obtain ⟨d, old, res, _, _, _, hf⟩ := processEntry_ok_some h
  rcases res with ⟨new, r⟩
  rw [finalizeDep_spec] at hf
  obtain ⟨hdep, hmod⟩ := Prod.mk.injEq .. ▸ hf
  subst hdep hmod
  by_cases hno : new = old <;> simp [hno]

/-- The crate-modified flag of the entry loop holds exactly when one of the
emitted records changed its requirement. -/
theorem processEntries_modified (args : Args)
    (selected : List (String × Option String)) (env : Env) :
    ∀ (l : List Entry) ks rs m err,
      processEntries args selected env l = (ks, rs, m, err) →
      (m = true ↔ ∃ dep ∈ rs,
        dep.new_version_req ≠ dep.old_version_req) := by
  intro l
  induction l with
  | nil =>
    intro ks rs m err h
    unfold processEntries at h
    simp only [Prod.mk.injEq] at h
    obtain ⟨_, h2, h3, _⟩ := h
    subst h2 h3
    simp
  | cons e rest ih =>
    intro ks rs m err h
    unfold processEntries at h
    obtain ⟨pe, hpe⟩ : ∃ q, processEntry args selected env e = q := ⟨_, rfl⟩
    rw [hpe] at h
    rcases pe with msg | op
    · simp only [Prod.mk.injEq] at h
      obtain ⟨_, h2, h3, _⟩ := h
      subst h2 h3
      simp
    · obtain ⟨⟨ks2, rs2, m2, err2⟩, hrec⟩ :
          ∃ q, processEntries args selected env rest = q := ⟨_, rfl⟩
      rw [hrec] at h
      rcases op with _ | ⟨dep, modified⟩
      · dsimp only at h
        simp only [Prod.mk.injEq] at h
        obtain ⟨_, h2, h3, _⟩ := h
        subst h2 h3
        exact ih ks2 rs2 m2 err2 hrec
      · dsimp only at h
        simp only [Prod.mk.injEq] at h
        obtain ⟨_, h2, h3, _⟩ := h
        subst h2 h3
        rw [Bool.or_eq_true, processEntry_modified hpe,
          ih ks2 rs2 m2 err2 hrec]
        simp only [List.mem_cons]
        constructor
        · rintro (hc | ⟨dp, hdp, hcc⟩)
          · exact ⟨dep, Or.inl rfl, hc⟩
          · exact ⟨dp, Or.inr hdp, hcc⟩
        · rintro ⟨dp, hdp | hdp, hcc⟩
          · exact Or.inl (hdp ▸ hcc)
          · exact Or.inr ⟨dp, hdp, hcc⟩

/-- The package loop preserves the invariant "the any-modified flag holds
exactly when some accumulated record changed its requirement". -/
theorem execLoop_modified_inv (args : Args)
    (selected : List (String × Option String)) (env : Env) :
    ∀ (ps : List Package) (st st' : LoopState) (err : Option String),
      execLoop args selected env ps st = (st', err) →
      (st.anyModified = true ↔ ∃ dep ∈ st.records,
        dep.new_version_req ≠ dep.old_version_req) →
      (st'.anyModified = true ↔ ∃ dep ∈ st'.records,
        dep.new_version_req ≠ dep.old_version_req) := by
  intro ps
  induction ps with
  | nil =>
    intro st st' err h hP
    unfold execLoop at h
    simp only [Prod.mk.injEq] at h
    rw [← h.1]
    exact hP
  | cons p rest ih =>
    intro st st' err h hP
    unfold execLoop at h
    obtain ⟨⟨ks, rs, m, errE⟩, hpe⟩ :
        ∃ q, processEntries args selected env p.entries = q := ⟨_, rfl⟩
    rw [hpe] at h
    have hstep : ((st.anyModified || m) = true ↔
        ∃ dep ∈ st.records ++ rs,
          dep.new_version_req ≠ dep.old_version_req) := by
      rw [Bool.or_eq_true, hP,
        processEntries_modified args selected env p.entries ks rs m errE hpe]
      constructor
      · rintro (⟨dp, hdp, hc⟩ | ⟨dp, hdp, hc⟩)
        · exact ⟨dp, List.mem_append_left _ hdp, hc⟩
        · exact ⟨dp, List.mem_append_right _ hdp, hc⟩
      · rintro ⟨dp, hdp, hc⟩
        rcases List.mem_append.mp hdp with hdp | hdp
        · exact Or.inl ⟨dp, hdp, hc⟩
        · exact Or.inr ⟨dp, hdp, hc⟩
    rcases errE with _ | msg
    · dsimp only at h
      split at h
      · exact ih _ st' err h hstep
      · exact ih _ st' err h hstep
    · dsimp only at h
      simp only [Prod.mk.injEq] at h
      rw [← h.1]
      exact hstep

/-- With `--locked` the package loop never records a manifest write. -/
theorem execLoop_writes_locked (args : Args)
    (selected : List (String × Option String)) (env : Env)
    (hl : args.locked = true) :
    ∀ (ps : List Package) (st : LoopState),
      (execLoop args selected env ps st).1.writes = st.writes := by
  intro ps
  induction ps with
  | nil => intro st; rfl
  | cons p rest ih =>
    intro st
    unfold execLoop
    obtain ⟨⟨ks, rs, m, errE⟩, hpe⟩ :
        ∃ q, processEntries args selected env p.entries = q := ⟨_, rfl⟩
    rw [hpe]
    rcases errE with _ | msg
    · dsimp only
      have hcond : (!args.dry_run && !args.locked && m) = false := by
        rw [hl]
        simp
      rw [hcond]
      simp only [Bool.false_eq_true, if_false]
      exact ih _
    · rfl

/-- C8: when the package loop finishes without error and the `--locked` bail
does not fire, user-named dependencies that were never encountered as table
keys make the run fail with the hard error naming exactly those names. -/
theorem c8_missing_dependency_error (args : Args)
    (selected : List (String × Option String)) (env : Env)
    (packages : List Package) (st : LoopState)
    (hloop : execLoop args selected env packages ⟨[], [], [], false⟩
      = (st, none))
    (hnl : (st.anyModified && args.locked) = false)
    (hu : (selected.map Prod.fst).filter
      (fun k => !st.processedKeys.contains k) ≠ []) :
    (execModel args selected env packages).result =
      .error (missingDepsMessage ((selected.map Prod.fst).filter
        (fun k => !st.processedKeys.contains k))) := by
  unfold execModel
  rw [hloop]
  dsimp only
  rw [hnl]
  simp only [Bool.false_eq_true, if_false]
  have hie : ((selected.map Prod.fst).filter
      (fun k => !st.processedKeys.contains k)).isEmpty = false := by
    rcases hfe : (selected.map Prod.fst).filter
        (fun k => !st.processedKeys.contains k) with _ | ⟨a, t⟩
    · exact absurd hfe hu
    · rfl
  rw [hie]
  simp only [Bool.false_eq_true, if_false]

/-- C8 witness: naming `does-not-exist` over a manifest whose only table key
is `foo` fails with the hard error naming exactly that dependency. -/
theorem c8_witness :
    (execModel noFlags [("does-not-exist", none)] (latestEnv "1.5.0")
      [⟨"pkg", [regEntry "foo" "1.2"]⟩]).result =
      .error "dependency does-not-exist doesn't exist" := by
  rw [c8_missing_dependency_error noFlags [("does-not-exist", none)]
    (latestEnv "1.5.0") [⟨"pkg", [regEntry "foo" "1.2"]⟩]
    ⟨["foo"], [], [], false⟩ (by decide) (by decide) (by decide)]
  decide

/-- C9: in locked (must-not-change) mode no manifest write is ever invoked,
and if the loop completes with some record whose computed new requirement
differs from its old one, the run fails with the `--locked` hard error. -/
theorem c9_locked_mode (args : Args)
    (selected : List (String × Option String)) (env : Env)
    (packages : List Package) (hl : args.locked = true) :
    (execModel args selected env packages).writes = [] ∧
    (∀ st, execLoop args selected env packages ⟨[], [], [], false⟩
        = (st, none) →
      (∃ dep ∈ st.records, dep.new_version_req ≠ dep.old_version_req) →
      (execModel args selected env packages).result =
        .error "cannot upgrade due to `--locked`") := by
  constructor
  · unfold execModel
    obtain ⟨⟨st0, err0⟩, hE⟩ :
        ∃ q, execLoop args selected env packages ⟨[], [], [], false⟩ = q :=
      ⟨_, rfl⟩
    rw [hE]
    have hw : st0.writes = [] := by
      have hwl := execLoop_writes_locked args selected env hl packages
        ⟨[], [], [], false⟩
      rw [hE] at hwl
      exact hwl
    rcases err0 with _ | msg
    · dsimp only
      split
      · exact hw
      · split
        · exact hw
        · exact hw
    · exact hw
  · intro st hloop hex
    unfold execModel
    rw [hloop]
    dsimp only
    have hm : st.anyModified = true :=
      (execLoop_modified_inv args selected env packages ⟨[], [], [], false⟩
        st none hloop (by simp)).mpr hex
    rw [hm, hl]
    simp

/-- C9 witness: locked mode over an entry whose latest version forces a
change — no write happens and the run fails with the `--locked` error. -/
theorem c9_witness :
    (execModel { noFlags with locked := true } [] (latestEnv "0.2.3")
      [⟨"pkg", [regEntry "foo" "0.1"]⟩]).writes = [] ∧
    (execModel { noFlags with locked := true } [] (latestEnv "0.2.3")
      [⟨"pkg", [regEntry "foo" "0.1"]⟩]).result =
      .error "cannot upgrade due to `--locked`" := by
  refine ⟨(c9_locked_mode { noFlags with locked := true } []
      (latestEnv "0.2.3") [⟨"pkg", [regEntry "foo" "0.1"]⟩] rfl).1, ?_⟩
  exact (c9_locked_mode { noFlags with locked := true } []
      (latestEnv "0.2.3") [⟨"pkg", [regEntry "foo" "0.1"]⟩] rfl).2
    ⟨["foo"], [mkDep "foo" "0.1" none (some "0.2.3") "0.2" none], [], true⟩
    (by decide) (by decide)

end CargoEdit
